import Mathlib

/-!
Shallow embedding of the batch transfer pipeline of `src/App.tsx`
(lnfi-batch-tool): the task parser (`handleTransfer`, lines 164-187),
the per-task loop (`handleTransfer`, lines 189-207) and the publish
step (`transfer`, lines 63-102).

Modelling conventions:
* JavaScript numbers produced by `parseInt` are modelled as `Option Int`,
  `none` standing for the `NaN` sentinel (amounts are integral whenever
  they are not `NaN`).
* `String.prototype.split` with a one-character separator is modelled by
  `splitChar` below, with the same semantics (the empty string splits to
  `[""]`, separators at the ends produce empty fields).
* The external nostr / relay capabilities (nip04 encryption, event id
  computation, Schnorr signing, the relay socket) are modelled as an
  environment: a `Crypto` record of abstract deterministic functions and
  an `Env` describing the relay handle, its connection state and the
  outcome of each connect / publish attempt.  The trace of calls made to
  the relay is returned explicitly as a `List BusCall`.
* A thrown JavaScript exception is modelled as `Except.error`.
-/

namespace Lnfi

/-- `SUPPORTED_TOKENS` of App.tsx (lines 41-47). -/
def SUPPORTED_TOKENS : List String := ["SATS", "TREAT", "TRICK", "NOSTR", "TNA"]

/-- The npub literal decoded at App.tsx lines 50-52. -/
def LNFI_NPUB : String :=
  "npub1dy7n73dcrs0n24ec87u4tuagevkpjnzyl7aput69vmn8saemgnuq0a4n6y"

/-- `LNFI_SEND_ADDR = nip19.decode(LNFI_NPUB).data` (App.tsx lines 50-52):
the bech32 payload of the npub above, as a lowercase hex string. -/
def LNFI_SEND_ADDR : String :=
  "693d3f45b81c1f3557383fb955f3a8cb2c194c44ffba1e2f4566e678773b44f8"

/-- Tail-recursive worker for `splitChar`. -/
def splitCharAux (sep : Char) : List Char → List Char → List String
  | [], acc => [String.mk acc.reverse]
  | c :: cs, acc =>
    if c = sep then String.mk acc.reverse :: splitCharAux sep cs []
    else splitCharAux sep cs (c :: acc)

/-- JavaScript `s.split(sep)` for a one-character separator `sep`. -/
def splitChar (sep : Char) (s : String) : List String :=
  splitCharAux sep s.toList []

/-- JavaScript `s.toUpperCase()` (ASCII range; token kinds are ASCII). -/
def toUpperJS (s : String) : String := String.mk (s.toList.map Char.toUpper)

/-- Whitespace skipped by JavaScript `parseInt` (ASCII part). -/
def isJsSpace (c : Char) : Bool :=
  c = ' ' || c = '\t' || c = '\n' || c = '\r' || c = '\x0b' || c = '\x0c'

/-- Value of one character as a hexadecimal digit, if it is one. -/
def hexVal? (c : Char) : Option Nat :=
  if c.isDigit then some (c.toNat - 48)
  else if 'a' ≤ c ∧ c ≤ 'f' then some (c.toNat - 97 + 10)
  else if 'A' ≤ c ∧ c ≤ 'F' then some (c.toNat - 65 + 10)
  else none

/-- Value of one character as a digit in the given base (10 or 16), if it is one. -/
def digitVal? (base : Nat) (c : Char) : Option Nat :=
  match hexVal? c with
  | some v => if v < base then some v else none
  | none => none

/-- Longest prefix of digit values in the given base. -/
def leadingDigits (base : Nat) : List Char → List Nat
  | [] => []
  | c :: cs =>
    match digitVal? base c with
    | some v => v :: leadingDigits base cs
    | none => []

/-- Value of a digit-value list read most-significant first. -/
def natOfDigits (base : Nat) (ds : List Nat) : Nat :=
  ds.foldl (fun a d => a * base + d) 0

/-- Strip an optional leading sign, JavaScript `parseInt` step 3. -/
def stripSign : List Char → Int × List Char
  | [] => (1, [])
  | c :: cs =>
    if c = '-' then (-1, cs)
    else if c = '+' then (1, cs)
    else (1, c :: cs)

/-- Detect a `0x` / `0X` prefix, JavaScript `parseInt` radix detection. -/
def stripHexMark : List Char → Nat × List Char
  | c0 :: c1 :: cs =>
    if c0 = '0' ∧ (c1 = 'x' ∨ c1 = 'X') then (16, cs) else (10, c0 :: c1 :: cs)
  | cs => (10, cs)

/-- JavaScript `parseInt(s)` (radix argument omitted, as in App.tsx line
169): skip whitespace, optional sign, optional `0x` prefix, then the
longest digit prefix; `none` is the `NaN` result when no digit is found. -/
def parseIntJS (s : String) : Option Int :=
  let cs0 := s.toList.dropWhile isJsSpace
  let p1 := stripSign cs0
  let p2 := stripHexMark p1.2
  let ds := leadingDigits p2.1 p2.2
  if ds.isEmpty then none else some (p1.1 * (natOfDigits p2.1 ds : Nat))

/-- `parseInt` applied to a possibly-undefined field: JavaScript coerces
`undefined` to the string "undefined", which parses to `NaN`. -/
def parseIntJSOpt : Option String → Option Int
  | none => parseIntJS "undefined"
  | some s => parseIntJS s

/-- JavaScript template-literal rendering of a (possibly NaN) number. -/
def jsNumToString : Option Int → String
  | none => "NaN"
  | some n => toString n

/-- The `Wallet` type of App.tsx (lines 24-28); the private key bytes are
abstract naturals. -/
structure Wallet where
  nsec : String
  npub : String
  privateKey : List Nat
deriving Repr, DecidableEq

/-- The `Task` type of App.tsx (lines 30-34).  The token kind is kept as
the raw upper-cased string: the source's `as SupportedToken` cast is a
compile-time assertion with no runtime effect, so unsupported strings do
flow through. -/
structure Task where
  address : String
  amount : Option Int
  token : String
deriving Repr, DecidableEq

/-- The `Receipt` type of App.tsx (lines 36-39): a task plus optional
`eventId` / `error` fields (`none` = the field is absent or undefined). -/
structure Receipt where
  address : String
  amount : Option Int
  token : String
  eventId : Option String
  error : Option String
deriving Repr, DecidableEq

/-- Parse one line (the arrow body of the `.map` at App.tsx lines 165-177):
destructure `line.split('-')` into (address, token, amount); accessing
`toUpperCase` on an absent token field throws, modelled as `.error`. -/
def parseLine (line : String) : Except Unit Task :=
  match splitChar '-' line with
  | [] => .error ()
  | [_] => .error ()
  | a :: t :: rest =>
    .ok { address := a, amount := parseIntJSOpt rest.head?, token := toUpperJS t }

/-- JavaScript `Array.prototype.map` with a throwing callback: evaluated
left to right, the first throw aborts the whole map. -/
def parseLines : List String → Except Unit (List Task)
  | [] => .ok []
  | l :: ls =>
    match parseLine l with
    | .error e => .error e
    | .ok t =>
      match parseLines ls with
      | .error e => .error e
      | .ok ts => .ok (t :: ts)

/-- The whole parse step of `handleTransfer` (App.tsx lines 164-183):
`tasks.split('\n').map(...)` inside try/catch. -/
def parseTasks (input : String) : Except Unit (List Task) :=
  parseLines (splitChar '\n' input)

/-- The external cryptographic capabilities used by `transfer`
(nostr-tools): nip04 encryption, and the event id / signature computed by
`finalizeEvent` from the private key and the event fields.  All are
deterministic functions of their arguments. -/
structure Crypto where
  encrypt : List Nat → String → String → String
  eventIdOf : List Nat → String → List (String × String) → Nat → Nat → String
  signOf : List Nat → String → List (String × String) → Nat → Nat → String

/-- A finalized nostr event as published by `transfer` (App.tsx 87-95). -/
structure NostrEvent where
  content : String
  tags : List (String × String)
  kind : Nat
  created_at : Nat
  id : String
  sig : String
deriving Repr, DecidableEq

/-- The environment a batch runs in: whether the `relay` state variable is
set, whether the relay reports `connected` when the batch starts, whether
a connect attempt would succeed, whether the n-th publish attempt
succeeds, the crypto capabilities and the current Unix time. -/
structure Env where
  relayPresent : Bool
  connected : Bool
  connectOk : Bool
  publishOk : Nat → Bool
  crypto : Crypto
  now : Nat

/-- One observable interaction with the Message Bus Client. -/
inductive BusCall where
  | connectCall : BusCall
  | publishCall : NostrEvent → BusCall
deriving Repr, DecidableEq

/-- A JavaScript exception escaping the pipeline. -/
inductive PipeErr where
  | connectError : PipeErr
  | publishError : PipeErr
deriving Repr, DecidableEq

/-- Mutable relay-session state threaded through the loop: the current
`relay.connected` flag and how many publishes have been attempted. -/
structure PState where
  connected : Bool
  nPublishes : Nat
deriving Repr, DecidableEq

/-- The plaintext built at App.tsx line 79. -/
def transferMsg (amount : Option Int) (token receiver : String) : String :=
  "transfer " ++ jsNumToString amount ++ " " ++ token ++ " to " ++ receiver

/-- The event built and finalized at App.tsx lines 79-95 for one task. -/
def transferEvent (env : Env) (sk : List Nat) (token : String)
    (amount : Option Int) (receiver : String) : NostrEvent :=
  let content := env.crypto.encrypt sk LNFI_SEND_ADDR (transferMsg amount token receiver)
  let tags := [("p", LNFI_SEND_ADDR), ("r", "json")]
  { content := content
    tags := tags
    kind := 4
    created_at := env.now
    id := env.crypto.eventIdOf sk content tags 4 env.now
    sig := env.crypto.signOf sk content tags 4 env.now }

/-- The `transfer` callback (App.tsx lines 63-102).  Returns the trace of
relay calls made, and either the thrown exception or the returned value:
`none` when `relay` is null (the early `return` at line 72, the value
`undefined`), otherwise `some event.id` (line 99). -/
def transfer (env : Env) (token : String) (amount : Option Int)
    (receiver : String) (sk : List Nat) (st : PState) :
    List BusCall × Except PipeErr (Option String × PState) :=
  if env.relayPresent = false then
    ([], .ok (none, st))
  else if st.connected = false ∧ env.connectOk = false then
    ([.connectCall], .error .connectError)
  else
    let pre : List BusCall := if st.connected then [] else [.connectCall]
    let st1 : PState := { st with connected := true }
    let event := transferEvent env sk token amount receiver
    if env.publishOk st1.nPublishes then
      (pre ++ [.publishCall event],
       .ok (some event.id, { st1 with nPublishes := st1.nPublishes + 1 }))
    else
      (pre ++ [.publishCall event], .error .publishError)

/-- Receipt pushed at App.tsx lines 191-194 for an unsupported token. -/
def rejectedReceipt (t : Task) : Receipt :=
  { address := t.address, amount := t.amount, token := t.token
    eventId := none, error := some "不支持的币种" }

/-- Receipt pushed at App.tsx lines 203-206 after calling `transfer`. -/
def doneReceipt (t : Task) (eid : Option String) : Receipt :=
  { address := t.address, amount := t.amount, token := t.token
    eventId := eid, error := none }

/-- The `for (const task of parsedTasks)` loop of `handleTransfer`
(App.tsx lines 189-207): strictly sequential, an unsupported token pushes
an error receipt and continues, otherwise `transfer` is awaited and its
result pushed; a thrown exception aborts the rest of the loop. -/
def runTasks (env : Env) (sk : List Nat) :
    List Task → PState → List BusCall × Except PipeErr (List Receipt × PState)
  | [], st => ([], .ok ([], st))
  | t :: rest, st =>
    if SUPPORTED_TOKENS.contains t.token = false then
      match runTasks env sk rest st with
      | (calls, res) => (calls, res.map fun p => (rejectedReceipt t :: p.1, p.2))
    else
      match transfer env t.token t.amount t.address sk st with
      | (calls, .error e) => (calls, .error e)
      | (calls, .ok (eid, st1)) =>
        match runTasks env sk rest st1 with
        | (calls2, .error e) => (calls ++ calls2, .error e)
        | (calls2, .ok (rs, st2)) => (calls ++ calls2, .ok (doneReceipt t eid :: rs, st2))

/-- Overall outcome of one `handleTransfer` invocation. -/
inductive BatchResult where
  | noWallet : BatchResult
  | parseFailed : BatchResult
  | aborted : PipeErr → BatchResult
  | done : List Receipt → BatchResult
deriving Repr, DecidableEq

/-- `handleTransfer` (App.tsx lines 153-221): bail out when no wallet is
loaded (`!wallet?.nsec`), parse the task text (a parse exception is caught
and leaves `parsedTasks` empty, so the `!parsedTasks.length` guard
returns with zero receipts), then run the loop.  `done rs` means the
batch ran to completion and exported `rs` as receipts.json; the trace of
relay calls is returned alongside. -/
def handleTransfer (env : Env) (wallet : Option Wallet) (tasksText : String) :
    BatchResult × List BusCall :=
  match wallet with
  | none => (.noWallet, [])
  | some w =>
    if w.nsec = "" then (.noWallet, [])
    else
      match parseTasks tasksText with
      | .error _ => (.parseFailed, [])
      | .ok parsed =>
        if parsed.isEmpty then (.parseFailed, [])
        else
          match runTasks env w.privateKey parsed ⟨env.connected, 0⟩ with
          | (calls, .error e) => (.aborted e, calls)
          | (calls, .ok (rs, _)) => (.done rs, calls)

/-- Specification-side reading of a base-10 integer literal: the decimal
value of an all-digit string. -/
def decVal (s : String) : Int :=
  Int.ofNat (s.toList.foldl (fun a c => a * 10 + (c.toNat - 48)) 0)

/-- A receipt extends its task: same address, amount and token. -/
def matchesTask (r : Receipt) (t : Task) : Prop :=
  r.address = t.address ∧ r.amount = t.amount ∧ r.token = t.token

/-- A line of the documented shape address-tokenKind-amount: exactly
three hyphen-separated fields, the third a nonempty base-10 digit string. -/
def wellFormedLine (line : String) : Bool :=
  match splitChar '-' line with
  | [_, _, n] => !n.toList.isEmpty && n.toList.all Char.isDigit
  | _ => false

/-- Concrete crypto capabilities used to instantiate witnesses. -/
def cryptoTest : Crypto :=
  { encrypt := fun _ _ m => "enc:" ++ m
    eventIdOf := fun _ _ _ _ _ => "id1"
    signOf := fun _ _ _ _ _ => "sg1" }

/-- Session where the relay handle was never set (initial connect failed). -/
def envNoRelay : Env :=
  { relayPresent := false, connected := false, connectOk := false
    publishOk := fun _ => true, crypto := cryptoTest, now := 1700000000 }

/-- Session with a live, connected relay whose publishes succeed. -/
def envConnected : Env :=
  { relayPresent := true, connected := true, connectOk := true
    publishOk := fun _ => true, crypto := cryptoTest, now := 1700000000 }

/-- Session with a relay handle whose connection dropped and whose
reconnect attempt fails. -/
def envDisconnected : Env :=
  { relayPresent := true, connected := false, connectOk := false
    publishOk := fun _ => true, crypto := cryptoTest, now := 1700000000 }

/-- Session with a connected relay whose publish attempts throw. -/
def envPubFail : Env :=
  { relayPresent := true, connected := true, connectOk := true
    publishOk := fun _ => false, crypto := cryptoTest, now := 1700000000 }

/-- A loaded wallet for witnesses. -/
def wTest : Wallet := { nsec := "nsec1test", npub := "npub1test", privateKey := [7] }

theorem hexVal_of_digit (c : Char) (h : c.isDigit = true) :
    hexVal? c = some (c.toNat - 48) := by
  simp [hexVal?, h]

theorem char_digit_toNat_bounds (c : Char) (h : c.isDigit = true) :
    48 ≤ c.toNat ∧ c.toNat ≤ 57 := by
  simp [Char.isDigit] at h
  exact ⟨h.1, h.2⟩

theorem digitVal_of_digit (c : Char) (h : c.isDigit = true) :
    digitVal? 10 c = some (c.toNat - 48) := by
  have hb := char_digit_toNat_bounds c h
  have hlt : c.toNat - 48 < 10 := by omega
  simp [digitVal?, hexVal_of_digit c h, hlt]

theorem not_isJsSpace_of_digit (c : Char) (h : c.isDigit = true) :
    isJsSpace c = false := by
  have h1 : c ≠ ' ' := by rintro rfl; exact absurd h (by decide)
  have h2 : c ≠ '\t' := by rintro rfl; exact absurd h (by decide)
  have h3 : c ≠ '\n' := by rintro rfl; exact absurd h (by decide)
  have h4 : c ≠ '\r' := by rintro rfl; exact absurd h (by decide)
  have h5 : c ≠ '\x0b' := by rintro rfl; exact absurd h (by decide)
  have h6 : c ≠ '\x0c' := by rintro rfl; exact absurd h (by decide)
  simp [isJsSpace, h1, h2, h3, h4, h5, h6]

theorem digit_ne (c : Char) (h : c.isDigit = true) :
    c ≠ '-' ∧ c ≠ '+' ∧ c ≠ 'x' ∧ c ≠ 'X' := by
  refine ⟨?_, ?_, ?_, ?_⟩ <;> (rintro rfl; exact absurd h (by decide))

theorem leadingDigits_all_digits (cs : List Char) (h : ∀ c ∈ cs, c.isDigit = true) :
    leadingDigits 10 cs = cs.map (fun c => c.toNat - 48) := by
  induction cs with
  | nil => rfl
  | cons c cs ih =>
    have hc : c.isDigit = true := h c (by simp)
    have hcs : ∀ x ∈ cs, x.isDigit = true := fun x hx => h x (by simp [hx])
    simp [leadingDigits, digitVal_of_digit c hc, ih hcs]

theorem natOfDigits_map_sub (cs : List Char) :
    natOfDigits 10 (cs.map fun c => c.toNat - 48) =
      cs.foldl (fun a c => a * 10 + (c.toNat - 48)) 0 := by
  simp [natOfDigits, List.foldl_map]

/-- JavaScript parseInt of a nonempty all-digit string is the decimal
value of that string. -/
theorem parseIntJS_digits (s : String) (hne : s.toList ≠ [])
    (hd : ∀ c ∈ s.toList, c.isDigit = true) :
    parseIntJS s = some (decVal s) := by
  obtain ⟨c, cs, hcons⟩ : ∃ c cs, s.toList = c :: cs := by
    cases h : s.toList with
    | nil => exact absurd h hne
    | cons c cs => exact ⟨c, cs, rfl⟩
  have hc : c.isDigit = true := hd c (by rw [hcons]; simp)
  have hcs : ∀ x ∈ cs, x.isDigit = true := fun x hx => hd x (by rw [hcons]; simp [hx])
  have hall : ∀ x ∈ c :: cs, x.isDigit = true := by
    intro x hx
    rcases List.mem_cons.mp hx with rfl | hx
    · exact hc
    · exact hcs x hx
  have hdw : (c :: cs).dropWhile isJsSpace = c :: cs := by
    simp [List.dropWhile_cons, not_isJsSpace_of_digit c hc]
  have hsign : stripSign (c :: cs) = (1, c :: cs) := by
    simp [stripSign, (digit_ne c hc).1, (digit_ne c hc).2.1]
  have hhex : stripHexMark (c :: cs) = (10, c :: cs) := by
    cases cs with
    | nil => rfl
    | cons d ds =>
      have hd2 : d.isDigit = true := hcs d (by simp)
      have : ¬(c = '0' ∧ (d = 'x' ∨ d = 'X')) := by
        rintro ⟨-, h | h⟩
        · exact (digit_ne d hd2).2.2.1 h
        · exact (digit_ne d hd2).2.2.2 h
      simp [stripHexMark, this]
  unfold parseIntJS
  rw [hcons, hdw]
  simp only [hsign, hhex, leadingDigits_all_digits (c :: cs) hall, natOfDigits_map_sub]
  have hcons2 : s.data = c :: cs := hcons
  simp [decVal, String.toList, hcons, hcons2]

theorem parseLines_ok_length (ls : List String) (ts : List Task)
    (h : parseLines ls = .ok ts) : ts.length = ls.length := by
  induction ls generalizing ts with
  | nil => simp [parseLines] at h; simp [← h]
  | cons l ls ih =>
    unfold parseLines at h
    cases hl : parseLine l with
    | error e => rw [hl] at h; exact absurd h (by simp)
    | ok t =>
      rw [hl] at h
      cases hls : parseLines ls with
      | error e => rw [hls] at h; exact absurd h (by simp)
      | ok ts2 =>
        rw [hls] at h
        cases h
        simp [ih ts2 hls]

theorem parseLines_ok_get (ls : List String) (ts : List Task)
    (h : parseLines ls = .ok ts) (i : Nat) (hi : i < ls.length) (hi2 : i < ts.length) :
    parseLine (ls.get ⟨i, hi⟩) = .ok (ts.get ⟨i, hi2⟩) := by
  induction ls generalizing ts i with
  | nil => exact absurd hi (by simp)
  | cons l ls ih =>
    unfold parseLines at h
    cases hl : parseLine l with
    | error e => rw [hl] at h; exact absurd h (by simp)
    | ok t =>
      rw [hl] at h
      cases hls : parseLines ls with
      | error e => rw [hls] at h; exact absurd h (by simp)
      | ok ts2 =>
        rw [hls] at h
        cases h
        cases i with
        | zero => simpa using hl
        | succ j =>
          have hj : j < ls.length := by simpa using hi
          have hj2 : j < ts2.length := by simpa using hi2
          simpa using ih ts2 hls j hj hj2

theorem parseLines_ok_of_forall (ls : List String)
    (h : ∀ l ∈ ls, ∃ t, parseLine l = .ok t) :
    ∃ ts, parseLines ls = .ok ts := by
  induction ls with
  | nil => exact ⟨[], rfl⟩
  | cons l ls ih =>
    obtain ⟨t, ht⟩ := h l (by simp)
    obtain ⟨ts, hts⟩ := ih (fun x hx => h x (by simp [hx]))
    exact ⟨t :: ts, by simp [parseLines, ht, hts]⟩

theorem parseLines_error_of_mem (ls : List String) (l : String)
    (hl : l ∈ ls) (he : parseLine l = .error ()) :
    parseLines ls = .error () := by
  induction ls with
  | nil => exact absurd hl (by simp)
  | cons a as ih =>
    unfold parseLines
    cases ha : parseLine a with
    | error e => cases e; rfl
    | ok t =>
      have hmem : l ∈ as := by
        rcases List.mem_cons.mp hl with rfl | h2
        · rw [ha] at he; exact absurd he (by simp)
        · exact h2
      rw [ih hmem]

theorem parseLines_mem_ok (ls : List String) (ts : List Task) (l : String)
    (h : parseLines ls = .ok ts) (hl : l ∈ ls) :
    ∃ t ∈ ts, parseLine l = .ok t := by
  induction ls generalizing ts with
  | nil => exact absurd hl (by simp)
  | cons a as ih =>
    unfold parseLines at h
    cases ha : parseLine a with
    | error e => rw [ha] at h; exact absurd h (by simp)
    | ok t =>
      rw [ha] at h
      cases has : parseLines as with
      | error e => rw [has] at h; exact absurd h (by simp)
      | ok ts2 =>
        rw [has] at h
        cases h
        rcases List.mem_cons.mp hl with rfl | h2
        · exact ⟨t, by simp, ha⟩
        · obtain ⟨t2, ht2, hp2⟩ := ih ts2 has h2
          exact ⟨t2, by simp [ht2], hp2⟩

/-- A line with fewer than two hyphen-separated fields makes the per-line
mapping throw. -/
theorem parseLine_error_of_short (line : String)
    (h : (splitChar '-' line).length < 2) : parseLine line = .error () := by
  unfold parseLine
  cases hs : splitChar '-' line with
  | nil => rfl
  | cons a rest =>
    cases rest with
    | nil => rfl
    | cons b rest2 =>
      exfalso
      rw [hs] at h
      simp at h
      omega

/-- A line with at least two hyphen-separated fields parses fine: address
is the first field, token the upper-cased second, amount the parseInt of
the (possibly absent) third; further fields are ignored. -/
theorem parseLine_ok_of_long (line : String) (a t : String) (rest : List String)
    (h : splitChar '-' line = a :: t :: rest) :
    parseLine line =
      .ok { address := a, amount := parseIntJSOpt rest.head?, token := toUpperJS t } := by
  unfold parseLine
  rw [h]

theorem transfer_no_relay (env : Env) (token : String) (amount : Option Int)
    (receiver : String) (sk : List Nat) (st : PState)
    (h : env.relayPresent = false) :
    transfer env token amount receiver sk st = ([], .ok (none, st)) := by
  simp [transfer, h]

theorem transfer_connect_fail (env : Env) (token : String) (amount : Option Int)
    (receiver : String) (sk : List Nat) (st : PState)
    (h1 : env.relayPresent = true) (h2 : st.connected = false)
    (h3 : env.connectOk = false) :
    transfer env token amount receiver sk st = ([.connectCall], .error .connectError) := by
  simp [transfer, h1, h2, h3]

theorem transfer_connected_publish_ok (env : Env) (token : String) (amount : Option Int)
    (receiver : String) (sk : List Nat) (st : PState)
    (h1 : env.relayPresent = true) (h2 : st.connected = true)
    (h3 : env.publishOk st.nPublishes = true) :
    transfer env token amount receiver sk st =
      ([.publishCall (transferEvent env sk token amount receiver)],
       .ok (some (transferEvent env sk token amount receiver).id,
            ⟨true, st.nPublishes + 1⟩)) := by
  simp [transfer, h1, h2, h3]

theorem transfer_connected_publish_fail (env : Env) (token : String) (amount : Option Int)
    (receiver : String) (sk : List Nat) (st : PState)
    (h1 : env.relayPresent = true) (h2 : st.connected = true)
    (h3 : env.publishOk st.nPublishes = false) :
    transfer env token amount receiver sk st =
      ([.publishCall (transferEvent env sk token amount receiver)],
       .error .publishError) := by
  simp [transfer, h1, h2, h3]

/-- When the relay handle is present, a `transfer` that returns normally
returns exactly the id of the event it published. -/
theorem transfer_ok_some (env : Env) (token : String) (amount : Option Int)
    (receiver : String) (sk : List Nat) (st : PState)
    (calls : List BusCall) (eid : Option String) (st1 : PState)
    (hrp : env.relayPresent = true)
    (h : transfer env token amount receiver sk st = (calls, .ok (eid, st1))) :
    eid = some (transferEvent env sk token amount receiver).id := by
  unfold transfer at h
  rw [hrp] at h
  simp only [Bool.true_eq_false, if_false] at h
  split at h
  · simp at h
  · split at h
    · simp at h
      exact h.2.1.symm
    · simp at h

theorem runTasks_nil (env : Env) (sk : List Nat) (st : PState) :
    runTasks env sk [] st = ([], .ok ([], st)) := rfl

/-- Unsupported head: no relay call for it, an error receipt is pushed,
and the loop continues on the remaining tasks with unchanged state. -/
theorem runTasks_unsup_cons (env : Env) (sk : List Nat) (t : Task)
    (rest : List Task) (st : PState)
    (h : SUPPORTED_TOKENS.contains t.token = false) :
    runTasks env sk (t :: rest) st =
      ((runTasks env sk rest st).1,
       (runTasks env sk rest st).2.map fun p => (rejectedReceipt t :: p.1, p.2)) := by
  have h2 : t.token ∉ SUPPORTED_TOKENS := by simpa using h
  cases hr : runTasks env sk rest st with
  | mk calls res => simp [runTasks, h2, hr]

/-- Supported head: the loop calls `transfer` and threads its outcome. -/
theorem runTasks_sup_cons (env : Env) (sk : List Nat) (t : Task)
    (rest : List Task) (st : PState)
    (h : SUPPORTED_TOKENS.contains t.token = true) :
    runTasks env sk (t :: rest) st =
      (match transfer env t.token t.amount t.address sk st with
       | (calls, .error e) => (calls, .error e)
       | (calls, .ok (eid, st1)) =>
         match runTasks env sk rest st1 with
         | (calls2, .error e) => (calls ++ calls2, .error e)
         | (calls2, .ok (rs, st2)) =>
           (calls ++ calls2, .ok (doneReceipt t eid :: rs, st2))) := by
  have h2 : t.token ∈ SUPPORTED_TOKENS := by simpa using h
  simp [runTasks, h2]

/-- A completed loop yields one receipt per task, in task order. -/
theorem runTasks_ok_spec (env : Env) (sk : List Nat) :
    ∀ (l : List Task) (st : PState) (calls : List BusCall)
      (rs : List Receipt) (st2 : PState),
      runTasks env sk l st = (calls, .ok (rs, st2)) →
      rs.length = l.length ∧
        ∀ i (hi : i < rs.length) (hi2 : i < l.length),
          matchesTask (rs.get ⟨i, hi⟩) (l.get ⟨i, hi2⟩) := by
  intro l
  induction l with
  | nil =>
    intro st calls rs st2 h
    rw [runTasks_nil] at h
    cases h
    exact ⟨rfl, fun i hi hi2 => absurd hi (by simp)⟩
  | cons t rest ih =>
    intro st calls rs st2 h
    cases hc : SUPPORTED_TOKENS.contains t.token with
    | false =>
      rw [runTasks_unsup_cons env sk t rest st hc] at h
      cases hr : runTasks env sk rest st with
      | mk calls1 res =>
        rw [hr] at h
        cases res with
        | error e => simp [Except.map] at h
        | ok p =>
          obtain ⟨rs1, st1⟩ := p
          simp only [Except.map, Prod.mk.injEq, Except.ok.injEq] at h
          obtain ⟨hcalls, hrs, hst⟩ := h
          subst hrs
          obtain ⟨hlen, hget⟩ := ih st calls1 rs1 st1 hr
          refine ⟨by simp [hlen], ?_⟩
          intro i hi hi2
          cases i with
          | zero => exact ⟨rfl, rfl, rfl⟩
          | succ j =>
            have hj : j < rs1.length := by simpa using hi
            have hj2 : j < rest.length := by simpa using hi2
            simpa using hget j hj hj2
    | true =>
      rw [runTasks_sup_cons env sk t rest st hc] at h
      cases ht : transfer env t.token t.amount t.address sk st with
      | mk calls1 res1 =>
        rw [ht] at h
        cases res1 with
        | error e => simp at h
        | ok p =>
          obtain ⟨eid, st1⟩ := p
          dsimp only [] at h
          cases hr : runTasks env sk rest st1 with
          | mk calls2 res2 =>
            rw [hr] at h
            cases res2 with
            | error e => simp at h
            | ok q =>
              obtain ⟨rs1, st3⟩ := q
              simp only [Prod.mk.injEq, Except.ok.injEq] at h
              obtain ⟨hcalls, hrs, hst⟩ := h
              subst hrs
              obtain ⟨hlen, hget⟩ := ih st1 calls2 rs1 st3 hr
              refine ⟨by simp [hlen], ?_⟩
              intro i hi hi2
              cases i with
              | zero => exact ⟨rfl, rfl, rfl⟩
              | succ j =>
                have hj : j < rs1.length := by simpa using hi
                have hj2 : j < rest.length := by simpa using hi2
                simpa using hget j hj hj2

/-- When the relay handle is present and every event id is non-empty, a
completed loop gives each receipt exactly one of the two outcome fields. -/
theorem runTasks_ok_fields (env : Env) (sk : List Nat)
    (hrp : env.relayPresent = true)
    (hid : ∀ sk2 c t k ts, env.crypto.eventIdOf sk2 c t k ts ≠ "") :
    ∀ (l : List Task) (st : PState) (calls : List BusCall)
      (rs : List Receipt) (st2 : PState),
      runTasks env sk l st = (calls, .ok (rs, st2)) →
      ∀ r ∈ rs,
        (∃ sId, r.eventId = some sId ∧ sId ≠ "" ∧ r.error = none) ∨
        (r.eventId = none ∧ r.error = some "不支持的币种") := by
  intro l
  induction l with
  | nil =>
    intro st calls rs st2 h r hrmem
    rw [runTasks_nil] at h
    cases h
    simp at hrmem
  | cons t rest ih =>
    intro st calls rs st2 h r hrmem
    cases hc : SUPPORTED_TOKENS.contains t.token with
    | false =>
      rw [runTasks_unsup_cons env sk t rest st hc] at h
      cases hr : runTasks env sk rest st with
      | mk calls1 res =>
        rw [hr] at h
        cases res with
        | error e => simp [Except.map] at h
        | ok p =>
          obtain ⟨rs1, st1⟩ := p
          simp only [Except.map, Prod.mk.injEq, Except.ok.injEq] at h
          obtain ⟨hcalls, hrs, hst⟩ := h
          subst hrs
          rcases List.mem_cons.mp hrmem with rfl | hmem
          · exact Or.inr ⟨rfl, rfl⟩
          · exact ih st calls1 rs1 st1 hr r hmem
    | true =>
      rw [runTasks_sup_cons env sk t rest st hc] at h
      cases ht : transfer env t.token t.amount t.address sk st with
      | mk calls1 res1 =>
        rw [ht] at h
        cases res1 with
        | error e => simp at h
        | ok p =>
          obtain ⟨eid, st1⟩ := p
          dsimp only [] at h
          cases hr : runTasks env sk rest st1 with
          | mk calls2 res2 =>
            rw [hr] at h
            cases res2 with
            | error e => simp at h
            | ok q =>
              obtain ⟨rs1, st3⟩ := q
              simp only [Prod.mk.injEq, Except.ok.injEq] at h
              obtain ⟨hcalls, hrs, hst⟩ := h
              subst hrs
              rcases List.mem_cons.mp hrmem with rfl | hmem
              · have heid := transfer_ok_some env t.token t.amount t.address sk st
                  calls1 eid st1 hrp ht
                refine Or.inl ⟨(transferEvent env sk t.token t.amount t.address).id,
                  by simp [doneReceipt, heid], ?_, rfl⟩
                exact hid sk _ _ 4 env.now
              · exact ih st1 calls2 rs1 st3 hr r hmem

/-- With a null relay handle the loop makes no relay call at all and
every task still yields a receipt: supported tokens get an undefined
event id (and no error field), unsupported ones the error receipt. -/
theorem runTasks_no_relay (env : Env) (sk : List Nat) (h : env.relayPresent = false) :
    ∀ (l : List Task) (st : PState),
      runTasks env sk l st =
        ([], .ok (l.map (fun t => if SUPPORTED_TOKENS.contains t.token then
            doneReceipt t none else rejectedReceipt t), st)) := by
  intro l
  induction l with
  | nil => intro st; simp [runTasks_nil]
  | cons t rest ih =>
    intro st
    cases hc : SUPPORTED_TOKENS.contains t.token with
    | false =>
      have hm : t.token ∉ SUPPORTED_TOKENS := by simpa using hc
      rw [runTasks_unsup_cons env sk t rest st hc, ih st]
      simp [Except.map, hm]
    | true =>
      have hm : t.token ∈ SUPPORTED_TOKENS := by simpa using hc
      rw [runTasks_sup_cons env sk t rest st hc,
          transfer_no_relay env t.token t.amount t.address sk st h]
      dsimp only []
      rw [ih st]
      simp [hm]

/-- With the relay present but disconnected and a failing connect, the
loop aborts with a connection error at the first supported-token task:
the only relay call is the failed connect attempt. -/
theorem runTasks_connect_fail (env : Env) (sk : List Nat)
    (hrp : env.relayPresent = true) (hco : env.connectOk = false) :
    ∀ (l : List Task) (st : PState), st.connected = false →
      (∃ t ∈ l, SUPPORTED_TOKENS.contains t.token = true) →
      runTasks env sk l st = ([.connectCall], .error .connectError) := by
  intro l
  induction l with
  | nil => intro st hst hex; simp at hex
  | cons t rest ih =>
    intro st hst hex
    cases hc : SUPPORTED_TOKENS.contains t.token with
    | true =>
      rw [runTasks_sup_cons env sk t rest st hc,
          transfer_connect_fail env t.token t.amount t.address sk st hrp hst hco]
    | false =>
      have hex2 : ∃ t2 ∈ rest, SUPPORTED_TOKENS.contains t2.token = true := by
        rcases hex with ⟨t2, hmem, hsup⟩
        rcases List.mem_cons.mp hmem with rfl | hmem2
        · rw [hc] at hsup; simp at hsup
        · exact ⟨t2, hmem2, hsup⟩
      rw [runTasks_unsup_cons env sk t rest st hc, ih st hst hex2]
      simp [Except.map]

/-- An exception thrown in a later part of the loop aborts the whole
loop: receipts accumulated before it are discarded. -/
theorem runTasks_append_error (env : Env) (sk : List Nat) :
    ∀ (l1 l2 : List Task) (st : PState) (c1 : List BusCall)
      (rs1 : List Receipt) (st1 : PState) (c2 : List BusCall) (e : PipeErr),
      runTasks env sk l1 st = (c1, .ok (rs1, st1)) →
      runTasks env sk l2 st1 = (c2, .error e) →
      runTasks env sk (l1 ++ l2) st = (c1 ++ c2, .error e) := by
  intro l1
  induction l1 with
  | nil =>
    intro l2 st c1 rs1 st1 c2 e h1 h2
    rw [runTasks_nil] at h1
    cases h1
    simpa using h2
  | cons t rest ih =>
    intro l2 st c1 rs1 st1 c2 e h1 h2
    cases hc : SUPPORTED_TOKENS.contains t.token with
    | false =>
      rw [runTasks_unsup_cons env sk t rest st hc] at h1
      cases hr : runTasks env sk rest st with
      | mk callsA resA =>
        rw [hr] at h1
        cases resA with
        | error e2 => simp [Except.map] at h1
        | ok p =>
          obtain ⟨rsA, stA⟩ := p
          simp only [Except.map, Prod.mk.injEq, Except.ok.injEq] at h1
          obtain ⟨hcalls, hrs, hst⟩ := h1
          subst hcalls
          subst hst
          have hrec := ih l2 st callsA rsA stA c2 e hr h2
          rw [List.cons_append, runTasks_unsup_cons env sk t (rest ++ l2) st hc, hrec]
          simp [Except.map]
    | true =>
      rw [runTasks_sup_cons env sk t rest st hc] at h1
      cases ht : transfer env t.token t.amount t.address sk st with
      | mk callsT resT =>
        rw [ht] at h1
        cases resT with
        | error e2 => simp at h1
        | ok p =>
          obtain ⟨eid, stT⟩ := p
          dsimp only [] at h1
          cases hr : runTasks env sk rest stT with
          | mk callsR resR =>
            rw [hr] at h1
            cases resR with
            | error e2 => simp at h1
            | ok q =>
              obtain ⟨rsR, stR⟩ := q
              simp only [Prod.mk.injEq, Except.ok.injEq] at h1
              obtain ⟨hcalls, hrs, hst⟩ := h1
              subst hst
              have hrec := ih l2 stT callsR rsR stR c2 e hr h2
              rw [List.cons_append, runTasks_sup_cons env sk t (rest ++ l2) st hc, ht]
              dsimp only []
              rw [hrec, ← hcalls]
              simp [List.append_assoc]

theorem handleTransfer_parse_error (env : Env) (w : Wallet) (text : String)
    (hw : ¬ w.nsec = "") (hp : parseTasks text = .error ()) :
    handleTransfer env (some w) text = (.parseFailed, []) := by
  simp [handleTransfer, hw, hp]

theorem handleTransfer_run (env : Env) (w : Wallet) (text : String)
    (parsed : List Task)
    (hw : ¬ w.nsec = "") (hp : parseTasks text = .ok parsed) (hne : parsed ≠ []) :
    handleTransfer env (some w) text =
      (match runTasks env w.privateKey parsed ⟨env.connected, 0⟩ with
       | (calls, .error e) => (.aborted e, calls)
       | (calls, .ok (rs, _)) => (.done rs, calls)) := by
  have hie : parsed.isEmpty = false := by
    cases parsed with
    | nil => exact absurd rfl hne
    | cons a as => rfl
  simp [handleTransfer, hw, hp, hie]

theorem handleTransfer_done_inv (env : Env) (w : Wallet) (text : String)
    (rs : List Receipt) (calls : List BusCall)
    (h : handleTransfer env (some w) text = (.done rs, calls)) :
    ∃ parsed st2, parseTasks text = .ok parsed ∧
      runTasks env w.privateKey parsed ⟨env.connected, 0⟩ = (calls, .ok (rs, st2)) := by
  dsimp only [handleTransfer] at h
  split at h
  · simp at h
  · cases hp : parseTasks text with
    | error e => rw [hp] at h; simp at h
    | ok parsed =>
      rw [hp] at h
      dsimp only [] at h
      split at h
      · simp at h
      · cases hr : runTasks env w.privateKey parsed ⟨env.connected, 0⟩ with
        | mk calls2 res =>
          rw [hr] at h
          cases res with
          | error e => simp at h
          | ok p =>
            obtain ⟨rs2, st2⟩ := p
            simp only [Prod.mk.injEq, BatchResult.done.injEq] at h
            obtain ⟨hrs, hcalls⟩ := h
            subst hrs
            subst hcalls
            exact ⟨parsed, st2, rfl, hr⟩

/-- A well-formed line parses to the task built from its three fields,
with the amount read as a decimal number. -/
theorem wellFormed_parseLine (line : String) (h : wellFormedLine line = true) :
    ∃ a tk n, splitChar '-' line = [a, tk, n] ∧
      parseLine line = .ok { address := a, amount := some (decVal n), token := toUpperJS tk } := by
  unfold wellFormedLine at h
  cases hs : splitChar '-' line with
  | nil => rw [hs] at h; simp at h
  | cons a rest1 =>
    cases rest1 with
    | nil => rw [hs] at h; simp at h
    | cons tk rest2 =>
      cases rest2 with
      | nil => rw [hs] at h; simp at h
      | cons n rest3 =>
        cases rest3 with
        | cons d rest4 => rw [hs] at h; simp at h
        | nil =>
          rw [hs] at h
          simp only [Bool.and_eq_true, Bool.not_eq_true', List.all_eq_true] at h
          obtain ⟨hne0, hd⟩ := h
          have hne : n.toList ≠ [] := by
            intro hnil
            rw [hnil] at hne0
            simp at hne0
          have hp := parseLine_ok_of_long line a tk [n] hs
          refine ⟨a, tk, n, rfl, ?_⟩
          rw [hp]
          have hint : parseIntJS n = some (decVal n) :=
            parseIntJS_digits n hne (fun c hc => hd c hc)
          simp [parseIntJSOpt, hint]

/-- C1, counterexample: with the relay state variable still null (its
initial connect failed), the batch for the supported-token line
"a-SATS-1" runs to completion and exports a receipt that carries neither
a publishedMessageId nor an errorDescription, refuting "never neither"
for completed batches. -/
theorem C1_counterexample :
    handleTransfer envNoRelay (some wTest) "a-SATS-1" =
      (.done [{ address := "a", amount := some 1, token := "SATS",
                eventId := none, error := none }], []) := by decide

/-- C1 (amended): provided the relay handle is present (non-null) and
event identifiers are non-empty, every receipt of a completed batch
carries exactly one of the two fields: a non-empty publishedMessageId
with no error for published tasks, or an error with no
publishedMessageId for rejected tasks.  When the relay handle is null, a
supported-token receipt carries neither field (see the counterexample). -/
theorem C1_exactly_one_field (env : Env) (w : Wallet) (text : String)
    (rs : List Receipt) (calls : List BusCall)
    (hrp : env.relayPresent = true)
    (hid : ∀ sk c t k ts, env.crypto.eventIdOf sk c t k ts ≠ "")
    (h : handleTransfer env (some w) text = (.done rs, calls)) :
    ∀ r ∈ rs,
      (∃ sId, r.eventId = some sId ∧ sId ≠ "" ∧ r.error = none) ∨
      (r.eventId = none ∧ r.error = some "不支持的币种") := by
  obtain ⟨parsed, st2, hp, hrun⟩ := handleTransfer_done_inv env w text rs calls h
  exact runTasks_ok_fields env w.privateKey hrp hid parsed ⟨env.connected, 0⟩ calls rs st2 hrun

/-- C1, witness: the amended theorem applied to a concrete connected
session and the line "a-SATS-1". -/
theorem C1_witness :
    (∃ sId, (⟨"a", some 1, "SATS", some "id1", none⟩ : Receipt).eventId = some sId ∧
      sId ≠ "" ∧ (⟨"a", some 1, "SATS", some "id1", none⟩ : Receipt).error = none) ∨
    ((⟨"a", some 1, "SATS", some "id1", none⟩ : Receipt).eventId = none ∧
      (⟨"a", some 1, "SATS", some "id1", none⟩ : Receipt).error = some "不支持的币种") :=
  C1_exactly_one_field envConnected wTest "a-SATS-1"
    [⟨"a", some 1, "SATS", some "id1", none⟩]
    [.publishCall ⟨"enc:transfer 1 SATS to a",
       [("p", LNFI_SEND_ADDR), ("r", "json")], 4, 1700000000, "id1", "sg1"⟩]
    rfl (fun _ _ _ _ _ => by show ("id1" : String) ≠ ""; decide) (by decide)
    ⟨"a", some 1, "SATS", some "id1", none⟩ (by simp)

/-- C2, counterexample: the pipeline is started while the Message Bus
Client is not connected (the relay handle is null), yet no connect is
ever attempted (empty call trace), no connection error surfaces, and a
receipt is produced — refuting connect-first / abort-with-zero-receipts
as stated. -/
theorem C2_counterexample :
    envNoRelay.connected = false ∧
    envNoRelay.relayPresent = false ∧
    handleTransfer envNoRelay (some wTest) "b-TNA-2" =
      (.done [{ address := "b", amount := some 2, token := "TNA",
                eventId := none, error := none }], []) :=
  ⟨rfl, rfl, by decide⟩

/-- C2 (amended): started disconnected, the behavior splits on the relay
handle.  If the handle exists but its connect attempt fails, the batch
aborts with a connection error, the failed connect being the only relay
call and zero receipts being exported (the connect happens lazily at the
first supported-token task, not before task processing).  If the handle
is null, no connect is attempted and no error surfaces: the batch
completes with one receipt per task. -/
theorem C2_disconnected_behavior (env : Env) (w : Wallet) (text : String)
    (parsed : List Task)
    (hw : ¬ w.nsec = "") (hp : parseTasks text = .ok parsed)
    (hconn : env.connected = false) :
    (env.relayPresent = true → env.connectOk = false →
      (∃ t ∈ parsed, SUPPORTED_TOKENS.contains t.token = true) →
      handleTransfer env (some w) text = (.aborted .connectError, [.connectCall])) ∧
    (env.relayPresent = false → parsed ≠ [] →
      ∃ rs, handleTransfer env (some w) text = (.done rs, []) ∧
        rs.length = parsed.length) := by
  constructor
  · intro hrp hco hex
    have hne : parsed ≠ [] := by
      rcases hex with ⟨t, hmem, -⟩
      intro hnil
      rw [hnil] at hmem
      simp at hmem
    have hcst : (⟨env.connected, 0⟩ : PState).connected = false := hconn
    have hr := runTasks_connect_fail env w.privateKey hrp hco parsed
      ⟨env.connected, 0⟩ hcst hex
    rw [handleTransfer_run env w text parsed hw hp hne, hr]
  · intro hrp hne
    have hr := runTasks_no_relay env w.privateKey hrp parsed ⟨env.connected, 0⟩
    rw [handleTransfer_run env w text parsed hw hp hne, hr]
    exact ⟨_, rfl, by simp⟩

/-- C2, witness: the amended theorem applied to a session whose relay
handle exists, is disconnected, and whose reconnect fails, on the input
"a-SATS-1". -/
theorem C2_witness :
    (envDisconnected.relayPresent = true → envDisconnected.connectOk = false →
      (∃ t ∈ [(⟨"a", some 1, "SATS"⟩ : Task)],
        SUPPORTED_TOKENS.contains t.token = true) →
      handleTransfer envDisconnected (some wTest) "a-SATS-1" =
        (.aborted .connectError, [.connectCall])) ∧
    (envDisconnected.relayPresent = false →
      [(⟨"a", some 1, "SATS"⟩ : Task)] ≠ [] →
      ∃ rs, handleTransfer envDisconnected (some wTest) "a-SATS-1" = (.done rs, []) ∧
        rs.length = [(⟨"a", some 1, "SATS"⟩ : Task)].length) :=
  C2_disconnected_behavior envDisconnected wTest "a-SATS-1"
    [⟨"a", some 1, "SATS"⟩] (by decide) rfl rfl

/-- C3: a task whose token kind is not in the fixed supported set is
immediately materialized as a receipt carrying the error string, with the
success field absent, with zero relay calls attributable to it (the call
trace equals that of the remaining tasks), and the loop continues with
the remaining tasks from an unchanged session state whether they succeed
or fail. -/
theorem C3_unsupported_rejected (env : Env) (sk : List Nat) (t : Task)
    (rest : List Task) (st : PState)
    (h : SUPPORTED_TOKENS.contains t.token = false) :
    (runTasks env sk (t :: rest) st).1 = (runTasks env sk rest st).1 ∧
    (rejectedReceipt t).error = some "不支持的币种" ∧
    (rejectedReceipt t).eventId = none ∧
    (∀ calls rs st2, runTasks env sk rest st = (calls, .ok (rs, st2)) →
      runTasks env sk (t :: rest) st = (calls, .ok (rejectedReceipt t :: rs, st2))) ∧
    (∀ calls e, runTasks env sk rest st = (calls, .error e) →
      runTasks env sk (t :: rest) st = (calls, .error e)) := by
  have hu := runTasks_unsup_cons env sk t rest st h
  refine ⟨by rw [hu], rfl, rfl, ?_, ?_⟩
  · intro calls rs st2 hr
    rw [hu, hr]
    simp [Except.map]
  · intro calls e hr
    rw [hu, hr]
    simp [Except.map]

/-- C3, witness: the theorem applied to the unsupported token "FOO" in a
connected session. -/
theorem C3_witness :
    (runTasks envConnected [7] [⟨"b", some 2, "FOO"⟩] ⟨true, 0⟩).1 =
      (runTasks envConnected [7] [] ⟨true, 0⟩).1 ∧
    (rejectedReceipt ⟨"b", some 2, "FOO"⟩).error = some "不支持的币种" ∧
    (rejectedReceipt ⟨"b", some 2, "FOO"⟩).eventId = none ∧
    (∀ calls rs st2, runTasks envConnected [7] [] ⟨true, 0⟩ = (calls, .ok (rs, st2)) →
      runTasks envConnected [7] [⟨"b", some 2, "FOO"⟩] ⟨true, 0⟩ =
        (calls, .ok (rejectedReceipt ⟨"b", some 2, "FOO"⟩ :: rs, st2))) ∧
    (∀ calls e, runTasks envConnected [7] [] ⟨true, 0⟩ = (calls, .error e) →
      runTasks envConnected [7] [⟨"b", some 2, "FOO"⟩] ⟨true, 0⟩ = (calls, .error e)) :=
  C3_unsupported_rejected envConnected [7] ⟨"b", some 2, "FOO"⟩ [] ⟨true, 0⟩ (by decide)

/-- C4: any line with fewer than two hyphen-separated fields (so that the
token-field access throws) aborts the whole parse: the batch produces
zero receipts and makes zero relay calls, no matter how well-formed the
other lines are. -/
theorem C4_parse_abort (env : Env) (w : Wallet) (text : String)
    (hw : ¬ w.nsec = "")
    (h : ∃ line ∈ splitChar '\n' text, (splitChar '-' line).length < 2) :
    handleTransfer env (some w) text = (.parseFailed, []) := by
  obtain ⟨line, hmem, hshort⟩ := h
  have he := parseLine_error_of_short line hshort
  have hp : parseTasks text = .error () :=
    parseLines_error_of_mem (splitChar '\n' text) line hmem he
  exact handleTransfer_parse_error env w text hw hp

/-- C4, witness: a malformed middle line "onlyonefield" spoils the two
well-formed lines around it: no receipts, no relay calls. -/
theorem C4_witness :
    handleTransfer envConnected (some wTest) "a-SATS-1\nonlyonefield\nb-TNA-2" =
      (.parseFailed, []) :=
  C4_parse_abort envConnected wTest "a-SATS-1\nonlyonefield\nb-TNA-2"
    (by decide) (by decide)

/-- C5: when the publish for a supported-token task throws, the error is
not caught per task: the loop result is the error itself, so the failing
task gets no receipt, no receipt list is produced at all, and the tasks
after it are never processed (the trace ends at the failed publish); at
the pipeline boundary the batch ends as aborted. -/
theorem C5_publish_exception_aborts (env : Env) (sk : List Nat) (pre : List Task)
    (t : Task) (rest : List Task) (st0 : PState) (c1 : List BusCall)
    (rs1 : List Receipt) (st : PState)
    (hpre : runTasks env sk pre st0 = (c1, .ok (rs1, st)))
    (hrp : env.relayPresent = true) (hc : st.connected = true)
    (hsup : SUPPORTED_TOKENS.contains t.token = true)
    (hpub : env.publishOk st.nPublishes = false) :
    runTasks env sk (pre ++ t :: rest) st0 =
      (c1 ++ [.publishCall (transferEvent env sk t.token t.amount t.address)],
       .error .publishError) ∧
    (∀ (w : Wallet) (text : String), ¬ w.nsec = "" →
      parseTasks text = .ok (pre ++ t :: rest) →
      sk = w.privateKey → st0 = ⟨env.connected, 0⟩ →
      handleTransfer env (some w) text =
        (.aborted .publishError,
         c1 ++ [.publishCall (transferEvent env sk t.token t.amount t.address)])) := by
  have h2 : runTasks env sk (t :: rest) st =
      ([.publishCall (transferEvent env sk t.token t.amount t.address)],
       .error .publishError) := by
    rw [runTasks_sup_cons env sk t rest st hsup,
        transfer_connected_publish_fail env t.token t.amount t.address sk st hrp hc hpub]
  have hmain := runTasks_append_error env sk pre (t :: rest) st0 c1 rs1 st
    [.publishCall (transferEvent env sk t.token t.amount t.address)] .publishError hpre h2
  refine ⟨hmain, ?_⟩
  intro w text hw hp hsk hst0
  subst hsk
  subst hst0
  have hne : pre ++ t :: rest ≠ [] := by simp
  rw [handleTransfer_run env w text (pre ++ t :: rest) hw hp hne, hmain]

/-- C5, witness: in a connected session whose publish throws, the batch
"a-SATS-1 then b-TNA-2" aborts at the very first publish. -/
theorem C5_witness :
    runTasks envPubFail [7] ([] ++ (⟨"a", some 1, "SATS"⟩ : Task) :: [⟨"b", some 2, "TNA"⟩]) ⟨true, 0⟩ =
      ([] ++ [.publishCall (transferEvent envPubFail [7] "SATS" (some 1) "a")],
       .error .publishError) ∧
    (∀ (w : Wallet) (text : String), ¬ w.nsec = "" →
      parseTasks text = .ok ([] ++ (⟨"a", some 1, "SATS"⟩ : Task) :: [⟨"b", some 2, "TNA"⟩]) →
      [7] = w.privateKey → (⟨true, 0⟩ : PState) = ⟨envPubFail.connected, 0⟩ →
      handleTransfer envPubFail (some w) text =
        (.aborted .publishError,
         [] ++ [.publishCall (transferEvent envPubFail [7] "SATS" (some 1) "a")])) :=
  C5_publish_exception_aborts envPubFail [7] [] ⟨"a", some 1, "SATS"⟩
    [⟨"b", some 2, "TNA"⟩] ⟨true, 0⟩ [] [] ⟨true, 0⟩ rfl rfl rfl (by decide) rfl

/-- C6: for an input whose every line is well-formed
(address-tokenKind-amount with a nonempty all-digit amount), the parser
succeeds with exactly one task per line, in line order, the i-th task
taking its address from the first hyphen field of line i, its token from
the upper-cased second field, and its amount from the decimal reading of
the third field. -/
theorem C6_parser_shape (input : String)
    (h : ∀ line ∈ splitChar '\n' input, wellFormedLine line = true) :
    ∃ ts, parseTasks input = .ok ts ∧
      ts.length = (splitChar '\n' input).length ∧
      ∀ i (hi2 : i < (splitChar '\n' input).length) (hi : i < ts.length)
        (a tk n : String),
        splitChar '-' ((splitChar '\n' input).get ⟨i, hi2⟩) = [a, tk, n] →
        (ts.get ⟨i, hi⟩).address = a ∧
        (ts.get ⟨i, hi⟩).token = toUpperJS tk ∧
        (ts.get ⟨i, hi⟩).amount = some (decVal n) := by
  have hall : ∀ l ∈ splitChar '\n' input, ∃ t, parseLine l = .ok t := by
    intro l hl
    obtain ⟨a, tk, n, hs, hok⟩ := wellFormed_parseLine l (h l hl)
    exact ⟨_, hok⟩
  obtain ⟨ts, hts⟩ := parseLines_ok_of_forall (splitChar '\n' input) hall
  have hlen := parseLines_ok_length (splitChar '\n' input) ts hts
  refine ⟨ts, hts, hlen, ?_⟩
  intro i hi2 hi a tk n hsplit
  have hpl := parseLines_ok_get (splitChar '\n' input) ts hts i hi2 hi
  obtain ⟨a2, tk2, n2, hs2, hok2⟩ :=
    wellFormed_parseLine ((splitChar '\n' input).get ⟨i, hi2⟩)
      (h ((splitChar '\n' input).get ⟨i, hi2⟩) (List.get_mem _ _ _))
  have hfields : ([a2, tk2, n2] : List String) = [a, tk, n] := hs2.symm.trans hsplit
  simp only [List.cons.injEq, and_true] at hfields
  obtain ⟨ha, htk, hn⟩ := hfields
  rw [hok2] at hpl
  have hrec : ts.get ⟨i, hi⟩ =
      { address := a2, amount := some (decVal n2), token := toUpperJS tk2 } := by
    injection hpl with h3
    exact h3.symm
  rw [hrec, ha, htk, hn]
  exact ⟨rfl, rfl, rfl⟩

/-- C6, witness: the theorem applied to the two-line input
"a-SATS-1" / "b-treat-25". -/
theorem C6_witness :
    ∃ ts, parseTasks "a-SATS-1\nb-treat-25" = .ok ts ∧
      ts.length = (splitChar '\n' "a-SATS-1\nb-treat-25").length ∧
      ∀ i (hi2 : i < (splitChar '\n' "a-SATS-1\nb-treat-25").length)
        (hi : i < ts.length) (a tk n : String),
        splitChar '-' ((splitChar '\n' "a-SATS-1\nb-treat-25").get ⟨i, hi2⟩) = [a, tk, n] →
        (ts.get ⟨i, hi⟩).address = a ∧
        (ts.get ⟨i, hi⟩).token = toUpperJS tk ∧
        (ts.get ⟨i, hi⟩).amount = some (decVal n) :=
  C6_parser_shape "a-SATS-1\nb-treat-25" (by decide)

/-- C7: whenever the pipeline completes and exports a receipt sequence,
that sequence has exactly one receipt per parsed task, in the order of
the tasks (hence of the input lines), each receipt carrying its task's
address, amount and token. -/
theorem C7_receipts_match_tasks (env : Env) (w : Wallet) (text : String)
    (rs : List Receipt) (calls : List BusCall)
    (h : handleTransfer env (some w) text = (.done rs, calls)) :
    ∃ parsed, parseTasks text = .ok parsed ∧
      rs.length = parsed.length ∧
      ∀ i (hi : i < rs.length) (hi2 : i < parsed.length),
        matchesTask (rs.get ⟨i, hi⟩) (parsed.get ⟨i, hi2⟩) := by
  obtain ⟨parsed, st2, hp, hrun⟩ := handleTransfer_done_inv env w text rs calls h
  obtain ⟨hlen, hget⟩ := runTasks_ok_spec env w.privateKey parsed
    ⟨env.connected, 0⟩ calls rs st2 hrun
  exact ⟨parsed, hp, hlen, hget⟩

/-- C7, witness: the theorem applied to a completed two-task batch (one
published, one rejected) in a connected session. -/
theorem C7_witness :
    ∃ parsed, parseTasks "a-SATS-1\nb-FOO-2" = .ok parsed ∧
      ([⟨"a", some 1, "SATS", some "id1", none⟩,
        ⟨"b", some 2, "FOO", none, some "不支持的币种"⟩] : List Receipt).length =
        parsed.length ∧
      ∀ i (hi : i < ([⟨"a", some 1, "SATS", some "id1", none⟩,
        ⟨"b", some 2, "FOO", none, some "不支持的币种"⟩] : List Receipt).length)
        (hi2 : i < parsed.length),
        matchesTask (([⟨"a", some 1, "SATS", some "id1", none⟩,
          ⟨"b", some 2, "FOO", none, some "不支持的币种"⟩] : List Receipt).get ⟨i, hi⟩)
          (parsed.get ⟨i, hi2⟩) :=
  C7_receipts_match_tasks envConnected wTest "a-SATS-1\nb-FOO-2"
    [⟨"a", some 1, "SATS", some "id1", none⟩,
     ⟨"b", some 2, "FOO", none, some "不支持的币种"⟩]
    [.publishCall ⟨"enc:transfer 1 SATS to a",
       [("p", LNFI_SEND_ADDR), ("r", "json")], 4, 1700000000, "id1", "sg1"⟩]
    (by decide)

/-- C8: for a supported-token task in a connected session, the published
event's content is the nip04 encryption, under the sender's key for the
fixed recipient, of exactly "transfer amount token to address"; its tags
are the recipient pair with key "p" and the fixed pair ("r", "json"); its
kind is 4; its creation time is the Unix timestamp; its id and signature
are derived from the sender's key and the event fields; and on a
successful publish that id is the value stored in the receipt's success
field. -/
theorem C8_event_construction (env : Env) (sk : List Nat) (token : String)
    (amount : Option Int) (receiver : String) (st : PState)
    (hrp : env.relayPresent = true) (hc : st.connected = true)
    (hpub : env.publishOk st.nPublishes = true) :
    ∃ ev : NostrEvent,
      ev.content = env.crypto.encrypt sk LNFI_SEND_ADDR
        ("transfer " ++ jsNumToString amount ++ " " ++ token ++ " to " ++ receiver) ∧
      ev.tags = [("p", LNFI_SEND_ADDR), ("r", "json")] ∧
      ev.kind = 4 ∧
      ev.created_at = env.now ∧
      ev.id = env.crypto.eventIdOf sk ev.content ev.tags 4 env.now ∧
      ev.sig = env.crypto.signOf sk ev.content ev.tags 4 env.now ∧
      transfer env token amount receiver sk st =
        ([.publishCall ev], .ok (some ev.id, ⟨true, st.nPublishes + 1⟩)) ∧
      (SUPPORTED_TOKENS.contains token = true →
        runTasks env sk [{ address := receiver, amount := amount, token := token }] st =
          ([.publishCall ev],
           .ok ([{ address := receiver, amount := amount, token := token,
                   eventId := some ev.id, error := none }], ⟨true, st.nPublishes + 1⟩))) := by
  refine ⟨transferEvent env sk token amount receiver, rfl, rfl, rfl, rfl, rfl, rfl, ?_, ?_⟩
  · exact transfer_connected_publish_ok env token amount receiver sk st hrp hc hpub
  · intro hsup
    rw [runTasks_sup_cons env sk ⟨receiver, amount, token⟩ [] st hsup]
    dsimp only []
    rw [transfer_connected_publish_ok env token amount receiver sk st hrp hc hpub]
    dsimp only []
    rw [runTasks_nil]
    simp [doneReceipt]

/-- C8, witness: the theorem applied to one concrete supported task in a
connected session. -/
theorem C8_witness :
    ∃ ev : NostrEvent,
      ev.content = envConnected.crypto.encrypt [7] LNFI_SEND_ADDR
        ("transfer " ++ jsNumToString (some 1) ++ " " ++ "SATS" ++ " to " ++ "a") ∧
      ev.tags = [("p", LNFI_SEND_ADDR), ("r", "json")] ∧
      ev.kind = 4 ∧
      ev.created_at = envConnected.now ∧
      ev.id = envConnected.crypto.eventIdOf [7] ev.content ev.tags 4 envConnected.now ∧
      ev.sig = envConnected.crypto.signOf [7] ev.content ev.tags 4 envConnected.now ∧
      transfer envConnected "SATS" (some 1) "a" [7] ⟨true, 0⟩ =
        ([.publishCall ev], .ok (some ev.id, ⟨true, 0 + 1⟩)) ∧
      (SUPPORTED_TOKENS.contains "SATS" = true →
        runTasks envConnected [7] [{ address := "a", amount := some 1, token := "SATS" }] ⟨true, 0⟩ =
          ([.publishCall ev],
           .ok ([{ address := "a", amount := some 1, token := "SATS",
                   eventId := some ev.id, error := none }], ⟨true, 0 + 1⟩))) :=
  C8_event_construction envConnected [7] "SATS" (some 1) "a" ⟨true, 0⟩ rfl rfl rfl

/-- C9: as long as every line has its first two hyphen fields, a third
field that is not a valid number neither fails its line nor the batch:
the whole input parses, the line's task is carried into the pipeline, and
its amount is exactly what the JavaScript integer parse yields on the
third field (the NaN sentinel when no digits are found). -/
theorem C9_bad_amount_still_parses (input : String) (line : String)
    (hall : ∀ l ∈ splitChar '\n' input, 2 ≤ (splitChar '-' l).length)
    (hmem : line ∈ splitChar '\n' input) :
    ∃ ts t, parseTasks input = .ok ts ∧ t ∈ ts ∧ parseLine line = .ok t ∧
      t.amount = parseIntJSOpt ((splitChar '-' line).get? 2) := by
  have hok : ∀ l ∈ splitChar '\n' input, ∃ t, parseLine l = .ok t := by
    intro l hl
    have h2 := hall l hl
    cases hs : splitChar '-' l with
    | nil => rw [hs] at h2; simp at h2
    | cons a rest1 =>
      cases rest1 with
      | nil => rw [hs] at h2; simp at h2
      | cons tk rest2 => exact ⟨_, parseLine_ok_of_long l a tk rest2 hs⟩
  obtain ⟨ts, hts⟩ := parseLines_ok_of_forall (splitChar '\n' input) hok
  obtain ⟨t, htmem, htok⟩ := parseLines_mem_ok (splitChar '\n' input) ts line hts hmem
  refine ⟨ts, t, hts, htmem, htok, ?_⟩
  have h2 := hall line hmem
  cases hs : splitChar '-' line with
  | nil => rw [hs] at h2; simp at h2
  | cons a rest1 =>
    cases rest1 with
    | nil => rw [hs] at h2; simp at h2
    | cons tk rest2 =>
      have hform := parseLine_ok_of_long line a tk rest2 hs
      rw [hform] at htok
      injection htok with h3
      rw [← h3]
      cases rest2 <;> simp

/-- C9, witness: the non-numeric amount "xyz" parses to the NaN sentinel
yet its task is carried into the batch alongside a numeric line. -/
theorem C9_witness :
    (∃ ts t, parseTasks "a-SATS-xyz\nb-TNA-5" = .ok ts ∧ t ∈ ts ∧
      parseLine "a-SATS-xyz" = .ok t ∧
      t.amount = parseIntJSOpt ((splitChar '-' "a-SATS-xyz").get? 2)) ∧
    parseIntJSOpt ((splitChar '-' "a-SATS-xyz").get? 2) = none :=
  ⟨C9_bad_amount_still_parses "a-SATS-xyz\nb-TNA-5" "a-SATS-xyz"
    (by decide) (by decide), by decide⟩

/-- C10: a line with more than two hyphens is not rejected: the parser
uses only the first three hyphen-separated fields and silently discards
the rest, so a hyphenated address is mis-split instead of reported. -/
theorem C10_extra_fields_ignored (line a tk f3 : String) (rest : List String)
    (h : splitChar '-' line = a :: tk :: f3 :: rest) :
    parseLine line =
      .ok { address := a, amount := parseIntJS f3, token := toUpperJS tk } := by
  have hform := parseLine_ok_of_long line a tk (f3 :: rest) h
  simpa [parseIntJSOpt] using hform

/-- C10, witness: the line "np-ub-SATS-10", whose intended address
contains a hyphen, silently parses with address "np", token "UB" and a
NaN amount instead of being rejected. -/
theorem C10_witness :
    parseLine "np-ub-SATS-10" =
      .ok { address := "np", amount := parseIntJS "SATS", token := toUpperJS "ub" } ∧
    parseIntJS "SATS" = none ∧ toUpperJS "ub" = "UB" :=
  ⟨C10_extra_fields_ignored "np-ub-SATS-10" "np" "ub" "SATS" ["10"] (by decide),
   by decide, by decide⟩

end Lnfi
